import Mathlib

/-!
Verification of the JUnit-report conversion core of burp-control
(src/burp-locator.js: `Severity`, `groupBy`, `isAboveThreshold`,
`createJunitReport`).

The embedding works at the level of the parsed issue list: the JS code
reads `scanReport.issues.issue || []` from the XML parser and from then
on only manipulates plain records, so a conversion is a function of an
issue list and a threshold string.  Errors thrown by the JS code are
modelled with `Except String`; the thrown message strings are
reproduced verbatim (the JS `'... {}'.format(x)` interpolation becomes
string concatenation).
-/

/-- An issue record as consumed by `createJunitReport`: the fields the
function reads from each parsed `<issue>` element. -/
structure Issue where
  serialNumber : Nat
  name : String
  type : String
  host : String
  path : String
  severity : String
  confidence : String
  issueBackground : String
  issueDetail : String
deriving Repr, DecidableEq

/-- The result of the JS property access `Severity[key]`: the frozen
object literal carries the four rank entries as own properties, but a
property access also consults the prototype chain, so a key naming an
`Object.prototype` member (e.g. "toString") yields that inherited
function — or the prototype object itself, for `__proto__` — rather
than `undefined`. -/
inductive JsValue where
  | num (rank : Nat)
  | protoFn
  | undefined
deriving Repr, DecidableEq

/-- The property names every object literal inherits from
`Object.prototype` in standard ECMAScript (the Annex B accessors
included, as in Node's V8). -/
def protoKeys : List String :=
  ["constructor", "hasOwnProperty", "isPrototypeOf", "propertyIsEnumerable",
   "toLocaleString", "toString", "valueOf", "__proto__",
   "__defineGetter__", "__defineSetter__", "__lookupGetter__", "__lookupSetter__"]

/-- The lookup `Severity[k]` on the frozen `Severity` object of the
source: the four severity names map to their own-property ranks, a key
inherited from `Object.prototype` yields that member (`Object.freeze`
does not sever the prototype chain), and any other key is `undefined`. -/
def Severity (k : String) : JsValue :=
  if k = "Information" then .num 0
  else if k = "Low" then .num 1
  else if k = "Medium" then .num 2
  else if k = "High" then .num 3
  else if k ∈ protoKeys then .protoFn
  else .undefined

/-- The JS `>=` between two looked-up values: two ranks compare
numerically; a value inherited from the prototype coerces to `NaN`, and
every comparison against `NaN` is false. -/
def jsGE : JsValue → JsValue → Bool
  | .num s, .num t => decide (s ≥ t)
  | _, _ => false

/-- `isAboveThreshold(issue, threshold)` from the source: the threshold
lookup is guarded against `undefined` first, then the issue's severity
lookup, and the two looked-up values are compared with `>=`.  A key
naming an `Object.prototype` member passes the guards. -/
def isAboveThreshold (issue : Issue) (threshold : String) : Except String Bool :=
  if Severity threshold = .undefined then
    .error ("Unknown severity threshold specified " ++ threshold)
  else if Severity issue.severity = .undefined then
    .error ("Issue has unknown severity " ++ issue.severity)
  else
    .ok (jsGE (Severity issue.severity) (Severity threshold))

/-- One step of the source's `groupBy` loop: the JS object `groups` is
an insertion-ordered association list (every key is
`JSON.stringify([item.name])`, a string starting with `[`, hence never
an array index, so `Object.keys` returns keys in insertion order; the
stringified key equals the key of another item exactly when the names
are equal, so the association list is keyed by the name itself). -/
def addToGroups (groups : List (String × List Issue)) (item : Issue) :
    List (String × List Issue) :=
  if groups.any (fun g => g.1 == item.name) then
    groups.map (fun g => if g.1 == item.name then (g.1, g.2 ++ [item]) else g)
  else
    groups ++ [(item.name, [item])]

/-- `groupBy(array, f)` from the source, at its only call site
`f = item => [item.name]`: fold the issues into the keyed groups, then
return the groups in key order (insertion order of first occurrence). -/
def groupBy (issues : List Issue) : List (List Issue) :=
  (issues.foldl addToGroups []).map Prod.snd

/-- The XML element trees built through `xmlbuilder`: a tag, an ordered
attribute list, body text and child elements. -/
inductive Xml where
  | elem (tag : String) (attrs : List (String × String)) (body : String)
      (children : List Xml)
deriving Repr

def Xml.tag : Xml → String
  | .elem t _ _ _ => t

def Xml.attrs : Xml → List (String × String)
  | .elem _ a _ _ => a

def Xml.body : Xml → String
  | .elem _ _ b _ => b

def Xml.childNodes : Xml → List Xml
  | .elem _ _ _ c => c

/-- Look up an attribute value on an element (first binding wins, as in
the built document, where every attribute is set once). -/
def attrVal (x : Xml) (k : String) : Option String :=
  (x.attrs.find? (fun p => p.1 == k)).map Prod.snd

/-- The multi-line failure description template of the source, with the
eight issue fields interpolated in order. -/
def failureDescription (issue : Issue) : String :=
  "Host: " ++ issue.host ++ "\nPath: " ++ issue.path ++
  "\nSeverity: " ++ issue.severity ++ "\nConfidence: " ++ issue.confidence ++
  "\nType: " ++ issue.type ++ "\nSerial Number: " ++ toString issue.serialNumber ++
  "\nBackground: " ++ issue.issueBackground ++ "\nDetail: " ++ issue.issueDetail

/-- The `failure` element nested in a testcase whose issue meets the
threshold: `message` attribute and description body. -/
def failureXml (issue : Issue) : Xml :=
  .elem "failure" [("message", issue.name)] (failureDescription issue) []

/-- The inner loop body of `createJunitReport`: build one `testcase`
element; `isAboveThreshold` throwing aborts the whole conversion. -/
def buildTestcase (issue : Issue) (threshold : String) : Except String Xml :=
  match isAboveThreshold issue threshold with
  | .error e => .error e
  | .ok above =>
    .ok (.elem "testcase"
      [("name", "Issue-" ++ toString issue.serialNumber),
       ("classname", issue.name),
       ("status", issue.severity ++ "/" ++ issue.confidence)]
      "" (if above then [failureXml issue] else []))

/-- Run an `Except`-valued function over a list, stopping at the first
error: the semantics of the source's `forEach` loops, in which a thrown
exception aborts the whole conversion. -/
def mapExcept (f : α → Except ε β) : List α → Except ε (List β)
  | [] => .ok []
  | x :: xs =>
    match f x with
    | .error e => .error e
    | .ok y =>
      match mapExcept f xs with
      | .error e => .error e
      | .ok ys => .ok (y :: ys)

/-- The outer loop body of `createJunitReport`: one `testsuite` element
per group, with `name` and `package` taken from the group's first issue
(`group[0]` in the source; `groupBy` never produces an empty group, so
the `getD` defaults are unreachable) and `tests` the group size. -/
def buildTestsuite (group : List Issue) (threshold : String) : Except String Xml :=
  match mapExcept (fun i => buildTestcase i threshold) group with
  | .error e => .error e
  | .ok cases =>
    .ok (.elem "testsuite"
      [("name", ((group.head?).map Issue.name).getD ""),
       ("tests", toString group.length),
       ("package", ((group.head?).map Issue.type).getD "")]
      "" cases)

/-- `createJunitReport` after parsing: group the issue list by name and
build the `testsuites` document, propagating the first thrown error. -/
def buildJUnitReport (issues : List Issue) (threshold : String) : Except String Xml :=
  match mapExcept (fun g => buildTestsuite g threshold) (groupBy issues) with
  | .error e => .error e
  | .ok suites => .ok (.elem "testsuites" [] "" suites)

/-- XML text escaping as performed by the serializer for body text and
attribute values. -/
def escChar (c : Char) : String :=
  if c = '&' then "&amp;"
  else if c = '<' then "&lt;"
  else if c = '>' then "&gt;"
  else if c = '"' then "&quot;"
  else String.singleton c

def escapeXml (s : String) : String :=
  String.join (s.toList.map escChar)

def renderAttrs (attrs : List (String × String)) : String :=
  String.join (attrs.map (fun p => " " ++ p.1 ++ "=\"" ++ escapeXml p.2 ++ "\""))

def indentOf (n : Nat) : String :=
  String.join (List.replicate n "  ")

mutual


/-- Models `xmlbuilder`'s `.end({pretty: true})` serialization: two-space
indentation, children each on their own line, body text inline, and a
self-closing tag for an empty element. -/
def serializeXml (depth : Nat) : Xml → String
  | .elem tag attrs body children =>
    let openTag := indentOf depth ++ "<" ++ tag ++ renderAttrs attrs
    match children with
    | [] =>
      if body = "" then openTag ++ "/>"
      else openTag ++ ">" ++ escapeXml body ++ "</" ++ tag ++ ">"
    | c :: cs =>
      openTag ++ ">\n" ++ serializeChildren (depth + 1) (c :: cs) ++
      "\n" ++ indentOf depth ++ "</" ++ tag ++ ">"


def serializeChildren (depth : Nat) : List Xml → String
  | [] => ""
  | [x] => serializeXml depth x
  | x :: y :: xs => serializeXml depth x ++ "\n" ++ serializeChildren depth (y :: xs)

end

/-- The full conversion as observed by the caller: the document tree
serialized to the output bytes, or the thrown error. -/
def convert (issues : List Issue) (threshold : String) : Except String String :=
  match buildJUnitReport issues threshold with
  | .error e => .error e
  | .ok tree => .ok ("<?xml version=\"1.0\"?>\n" ++ serializeXml 0 tree)

/-- The distinct issue names in first-seen order: the insertion order of
keys in the `groups` object (this is a specification-side description of
the key order, proved below to govern `groupBy`). -/
def firstSeenKeys (issues : List Issue) : List String :=
  issues.foldl (fun ks i => if i.name ∈ ks then ks else ks ++ [i.name]) []

/-- The `testcase` element produced for one issue when no error is
thrown: the failure child is present exactly when the JS comparison of
the two looked-up values is true. -/
def caseXml (issue : Issue) (threshold : String) : Xml :=
  .elem "testcase"
    [("name", "Issue-" ++ toString issue.serialNumber),
     ("classname", issue.name),
     ("status", issue.severity ++ "/" ++ issue.confidence)]
    ""
    (if jsGE (Severity issue.severity) (Severity threshold)
     then [failureXml issue] else [])

/-- The `testsuite` element produced for one group when no error is
thrown. -/
def suiteXml (group : List Issue) (threshold : String) : Xml :=
  .elem "testsuite"
    [("name", ((group.head?).map Issue.name).getD ""),
     ("tests", toString group.length),
     ("package", ((group.head?).map Issue.type).getD "")]
    "" (group.map (fun i => caseXml i threshold))

/-- The full document produced when no error is thrown. -/
def junitXml (issues : List Issue) (threshold : String) : Xml :=
  .elem "testsuites" [] "" ((groupBy issues).map (fun g => suiteXml g threshold))

/-- The issue of the spec's concrete scenario. -/
def sqlIssue : Issue :=
  { serialNumber := 7, name := "SQL Injection", type := "Injection",
    host := "http://example.com", path := "/login", severity := "High",
    confidence := "Certain", issueBackground := "bg", issueDetail := "detail" }

/-- An issue carrying an unrecognized severity name. -/
def bogusIssue : Issue :=
  { serialNumber := 42, name := "ZZZ", type := "T",
    host := "h", path := "/p", severity := "Bogus",
    confidence := "Firm", issueBackground := "b", issueDetail := "d" }

/-- A low-severity issue used for the monotonicity witness. -/
def infoIssue : Issue :=
  { serialNumber := 9, name := "Server Banner", type := "Info",
    host := "h2", path := "/q", severity := "Information",
    confidence := "Tentative", issueBackground := "b2", issueDetail := "d2" }

/-- Whether a built element has a nested `failure` child. -/
def hasFailureChild (c : Xml) : Bool :=
  c.childNodes.any (fun f => f.tag == "failure")

/-- The names of the testcase elements of a document that carry a
`failure` child: the set of failing test cases of the report. -/
def failingTestcases (root : Xml) : List String :=
  root.childNodes.flatMap (fun suite =>
    (suite.childNodes.filter
        (fun c => c.tag == "testcase" && hasFailureChild c)).map
      (fun c => (attrVal c "name").getD ""))

/-! ## Supporting lemmas -/

lemma foldlKeys_mem (l : List Issue) :
    ∀ (acc : List String) (k : String),
      k ∈ l.foldl (fun ks i => if i.name ∈ ks then ks else ks ++ [i.name]) acc ↔
        k ∈ acc ∨ ∃ i ∈ l, i.name = k := by
  induction l with
  | nil => simp
  | cons x l ih =>
    intro acc k
    simp only [List.foldl_cons, ih, List.mem_cons]
    by_cases hx : x.name ∈ acc
    · simp only [if_pos hx]
      constructor
      · rintro (h | h)
        · exact Or.inl h
        · exact Or.inr ⟨h.choose, Or.inr h.choose_spec.1, h.choose_spec.2⟩
      · rintro (h | ⟨i, hi | hi, hik⟩)
        · exact Or.inl h
        · exact Or.inl (hik ▸ hi ▸ hx)
        · exact Or.inr ⟨i, hi, hik⟩
    · simp only [if_neg hx, List.mem_append, List.mem_singleton]
      constructor
      · rintro ((h | h) | h)
        · exact Or.inl h
        · exact Or.inr ⟨x, Or.inl rfl, h.symm⟩
        · exact Or.inr ⟨h.choose, Or.inr h.choose_spec.1, h.choose_spec.2⟩
      · rintro (h | ⟨i, hi | hi, hik⟩)
        · exact Or.inl (Or.inl h)
        · exact Or.inl (Or.inr (hi ▸ hik.symm))
        · exact Or.inr ⟨i, hi, hik⟩

lemma firstSeenKeys_mem (l : List Issue) (k : String) :
    k ∈ firstSeenKeys l ↔ ∃ i ∈ l, i.name = k := by
  simpa [firstSeenKeys] using foldlKeys_mem l [] k

lemma foldlKeys_nodup (l : List Issue) :
    ∀ acc : List String, acc.Nodup →
      (l.foldl (fun ks i => if i.name ∈ ks then ks else ks ++ [i.name]) acc).Nodup := by
  induction l with
  | nil => exact fun _ h => h
  | cons x l ih =>
    intro acc hacc
    simp only [List.foldl_cons]
    by_cases hx : x.name ∈ acc
    · simpa [if_pos hx] using ih acc hacc
    · refine ih _ ?_
      simp [List.nodup_append, hacc, hx]

lemma firstSeenKeys_nodup (l : List Issue) : (firstSeenKeys l).Nodup :=
  foldlKeys_nodup l [] List.nodup_nil

lemma groupPairs_eq (l : List Issue) :
    l.foldl addToGroups [] =
      (firstSeenKeys l).map (fun k => (k, l.filter (fun i => i.name == k))) := by
  induction l using List.reverseRecOn with
  | nil => rfl
  | append_singleton l x ih =>
    have hkeys : firstSeenKeys (l ++ [x]) =
        if x.name ∈ firstSeenKeys l then firstSeenKeys l
        else firstSeenKeys l ++ [x.name] := by
      simp [firstSeenKeys, List.foldl_append]
    rw [List.foldl_append, List.foldl_cons, List.foldl_nil, ih]
    by_cases hx : x.name ∈ firstSeenKeys l
    · rw [hkeys, if_pos hx]
      rw [addToGroups, if_pos ?side]
      case side =>
        refine List.any_eq_true.mpr
          ⟨(x.name, l.filter (fun i => i.name == x.name)),
           List.mem_map.mpr ⟨x.name, hx, rfl⟩, by simp⟩
      rw [List.map_map]
      refine List.map_congr_left (fun k hk => ?_)
      simp only [Function.comp]
      by_cases hkx : k = x.name
      · subst hkx
        simp [List.filter_append]
      · have h1 : (k == x.name) = false := beq_eq_false_iff_ne.mpr hkx
        have h2 : (x.name == k) = false :=
          beq_eq_false_iff_ne.mpr (fun h => hkx h.symm)
        simp [h1, h2, List.filter_append]
    · rw [hkeys, if_neg hx]
      rw [addToGroups, if_neg ?side]
      case side =>
        intro hany
        obtain ⟨g, hg, hgx⟩ := List.any_eq_true.mp hany
        obtain ⟨k, hk, rfl⟩ := List.mem_map.mp hg
        have : k = x.name := by simpa using hgx
        exact hx (this ▸ hk)
      have hnone : l.filter (fun i => i.name == x.name) = [] := by
        rw [List.filter_eq_nil_iff]
        intro i hi
        simp only [beq_iff_eq]
        exact fun h => hx ((firstSeenKeys_mem l x.name).mpr ⟨i, hi, h⟩)
      rw [List.map_append]
      congr 1
      · refine List.map_congr_left (fun k hk => ?_)
        have h2 : (x.name == k) = false :=
          beq_eq_false_iff_ne.mpr (fun h => hx (h ▸ hk))
        simp [List.filter_append, h2]
      · simp [List.filter_append, hnone]

/-- `groupBy` produces, for each distinct name in first-seen order, the
input-ordered sublist of issues bearing that name. -/
lemma groupBy_eq (issues : List Issue) :
    groupBy issues =
      (firstSeenKeys issues).map (fun k => issues.filter (fun i => i.name == k)) := by
  rw [groupBy, groupPairs_eq, List.map_map]
  rfl

lemma perm_join_filter (ks : List String) (xs : List Issue)
    (hnd : ks.Nodup) (hcov : ∀ i ∈ xs, i.name ∈ ks) :
    ((ks.map (fun k => xs.filter (fun i => i.name == k))).flatten).Perm xs := by
  induction ks generalizing xs with
  | nil =>
    cases xs with
    | nil => simp
    | cons i xs => exact absurd (hcov i (List.mem_cons_self i xs)) (List.not_mem_nil _)
  | cons k ks ih =>
    have hknotin : k ∉ ks := (List.nodup_cons.mp hnd).1
    have hndks : ks.Nodup := (List.nodup_cons.mp hnd).2
    simp only [List.map_cons, List.flatten_cons]
    have hrest : ks.map (fun k' => xs.filter (fun i => i.name == k')) =
        ks.map (fun k' =>
          (xs.filter (fun i => !(i.name == k))).filter (fun i => i.name == k')) := by
      refine List.map_congr_left (fun k' hk' => ?_)
      rw [List.filter_filter]
      refine (List.filter_congr (fun i _ => ?_)).symm
      by_cases hik : i.name = k'
      · have hkk : ¬k' = k := fun h => hknotin (h ▸ hk')
        have hne : (i.name == k) = false :=
          beq_eq_false_iff_ne.mpr (fun h => hknotin (h ▸ hik ▸ hk'))
        simp [hik, hne, hkk]
      · simp [beq_eq_false_iff_ne.mpr hik]
    rw [hrest]
    have hcov' : ∀ i ∈ xs.filter (fun i => !(i.name == k)), i.name ∈ ks := by
      intro i hi
      obtain ⟨hmem, hcond⟩ := List.mem_filter.mp hi
      have := hcov i hmem
      simp only [Bool.not_eq_true', beq_eq_false_iff_ne] at hcond
      rcases List.mem_cons.mp this with h | h
      · exact absurd h hcond
      · exact h
    exact ((ih _ hndks hcov').append_left
      (xs.filter (fun i => i.name == k))).trans
      (List.filter_append_perm (fun i => i.name == k) xs)

lemma mapExcept_ok_length {f : α → Except ε β} :
    ∀ {l : List α} {ys : List β}, mapExcept f l = .ok ys → ys.length = l.length := by
  intro l
  induction l with
  | nil => intro ys h; cases h; rfl
  | cons x xs ih =>
    intro ys h
    rw [mapExcept] at h
    cases hfx : f x with
    | error e => rw [hfx] at h; cases h
    | ok y =>
      rw [hfx] at h
      cases hrest : mapExcept f xs with
      | error e => rw [hrest] at h; cases h
      | ok zs =>
        rw [hrest] at h
        cases h
        simp [ih hrest]

lemma mapExcept_ok_mem {f : α → Except ε β} :
    ∀ {l : List α} {ys : List β}, mapExcept f l = .ok ys →
      ∀ y ∈ ys, ∃ x ∈ l, f x = .ok y := by
  intro l
  induction l with
  | nil => intro ys h; cases h; intro y hy; cases hy
  | cons x xs ih =>
    intro ys h
    rw [mapExcept] at h
    cases hfx : f x with
    | error e => rw [hfx] at h; cases h
    | ok y =>
      rw [hfx] at h
      cases hrest : mapExcept f xs with
      | error e => rw [hrest] at h; cases h
      | ok zs =>
        rw [hrest] at h
        cases h
        intro z hz
        rcases List.mem_cons.mp hz with hz | hz
        · exact ⟨x, List.mem_cons_self x xs, hz ▸ hfx⟩
        · obtain ⟨w, hw, hfw⟩ := ih hrest z hz
          exact ⟨w, List.mem_cons_of_mem x hw, hfw⟩

lemma mapExcept_error_mem {f : α → Except ε β} :
    ∀ {l : List α} {e : ε}, mapExcept f l = .error e → ∃ x ∈ l, f x = .error e := by
  intro l
  induction l with
  | nil => intro e h; cases h
  | cons x xs ih =>
    intro e h
    rw [mapExcept] at h
    cases hfx : f x with
    | error e' =>
      rw [hfx] at h
      cases h
      exact ⟨x, List.mem_cons_self x xs, hfx⟩
    | ok y =>
      rw [hfx] at h
      cases hrest : mapExcept f xs with
      | error e' =>
        rw [hrest] at h
        cases h
        obtain ⟨w, hw, hfw⟩ := ih hrest
        exact ⟨w, List.mem_cons_of_mem x hw, hfw⟩
      | ok zs => rw [hrest] at h; cases h

lemma mapExcept_ok_of_forall {f : α → Except ε β} {g : α → β} :
    ∀ {l : List α}, (∀ x ∈ l, f x = .ok (g x)) → mapExcept f l = .ok (l.map g) := by
  intro l
  induction l with
  | nil => intro _; rfl
  | cons x xs ih =>
    intro h
    rw [mapExcept, h x (List.mem_cons_self x xs),
      ih (fun y hy => h y (List.mem_cons_of_mem x hy))]
    rfl

lemma mem_of_mem_groupBy {issues : List Issue} {g : List Issue} {i : Issue}
    (hg : g ∈ groupBy issues) (hi : i ∈ g) : i ∈ issues := by
  rw [groupBy_eq] at hg
  obtain ⟨k, _, rfl⟩ := List.mem_map.mp hg
  exact (List.mem_filter.mp hi).1

lemma buildTestcase_ok_of_valid {issue : Issue} {threshold : String}
    (ht : Severity threshold ≠ .undefined)
    (hs : Severity issue.severity ≠ .undefined) :
    buildTestcase issue threshold = .ok (caseXml issue threshold) := by
  rw [buildTestcase, isAboveThreshold, if_neg ht, if_neg hs, caseXml]

lemma buildTestsuite_ok_of_valid {group : List Issue} {threshold : String}
    (ht : Severity threshold ≠ .undefined)
    (hvalid : ∀ i ∈ group, Severity i.severity ≠ .undefined) :
    buildTestsuite group threshold = .ok (suiteXml group threshold) := by
  rw [buildTestsuite,
    mapExcept_ok_of_forall (g := fun i => caseXml i threshold)
      (fun i hi => buildTestcase_ok_of_valid ht (hvalid i hi))]
  rfl

lemma build_ok_of_valid {issues : List Issue} {threshold : String}
    (ht : Severity threshold ≠ .undefined)
    (hvalid : ∀ i ∈ issues, Severity i.severity ≠ .undefined) :
    buildJUnitReport issues threshold = .ok (junitXml issues threshold) := by
  rw [buildJUnitReport,
    mapExcept_ok_of_forall (g := fun g => suiteXml g threshold)
      (fun g hg =>
        buildTestsuite_ok_of_valid ht
          (fun i hi => hvalid i (mem_of_mem_groupBy hg hi)))]
  rfl

lemma mapExcept_ok_forall {f : α → Except ε β} :
    ∀ {l : List α} {ys : List β}, mapExcept f l = .ok ys →
      ∀ x ∈ l, ∃ y, f x = .ok y := by
  intro l
  induction l with
  | nil => intro ys _ x hx; cases hx
  | cons x xs ih =>
    intro ys h
    rw [mapExcept] at h
    cases hfx : f x with
    | error e => rw [hfx] at h; cases h
    | ok y =>
      rw [hfx] at h
      cases hrest : mapExcept f xs with
      | error e => rw [hrest] at h; cases h
      | ok zs =>
        intro z hz
        rcases List.mem_cons.mp hz with hz | hz
        · exact ⟨y, hz ▸ hfx⟩
        · exact ih hrest z hz

lemma buildTestcase_error {issue : Issue} {threshold : String} {e : String}
    (h : buildTestcase issue threshold = .error e) :
    isAboveThreshold issue threshold = .error e := by
  rw [buildTestcase] at h
  cases hi : isAboveThreshold issue threshold with
  | error e' => rw [hi] at h; cases h; rfl
  | ok b => rw [hi] at h; cases h

lemma buildTestcase_ok_tag {issue : Issue} {threshold : String} {c : Xml}
    (h : buildTestcase issue threshold = .ok c) : c.tag = "testcase" := by
  rw [buildTestcase] at h
  cases hi : isAboveThreshold issue threshold with
  | error e => rw [hi] at h; cases h
  | ok b => rw [hi] at h; cases h; rfl

lemma buildTestsuite_error {group : List Issue} {threshold : String} {e : String}
    (h : buildTestsuite group threshold = .error e) :
    mapExcept (fun i => buildTestcase i threshold) group = .error e := by
  rw [buildTestsuite] at h
  cases hm : mapExcept (fun i => buildTestcase i threshold) group with
  | error e' => rw [hm] at h; cases h; rfl
  | ok cases0 => rw [hm] at h; cases h

lemma buildTestsuite_ok_shape {group : List Issue} {threshold : String} {s : Xml}
    (h : buildTestsuite group threshold = .ok s) :
    ∃ cases0, mapExcept (fun i => buildTestcase i threshold) group = .ok cases0 ∧
      s = Xml.elem "testsuite"
        [("name", ((group.head?).map Issue.name).getD ""),
         ("tests", toString group.length),
         ("package", ((group.head?).map Issue.type).getD "")]
        "" cases0 := by
  rw [buildTestsuite] at h
  cases hm : mapExcept (fun i => buildTestcase i threshold) group with
  | error e => rw [hm] at h; cases h
  | ok cases0 => rw [hm] at h; cases h; exact ⟨cases0, rfl, rfl⟩

lemma buildJUnitReport_ok_shape {issues : List Issue} {threshold : String} {tree : Xml}
    (h : buildJUnitReport issues threshold = .ok tree) :
    ∃ suites, mapExcept (fun g => buildTestsuite g threshold) (groupBy issues) = .ok suites ∧
      tree = Xml.elem "testsuites" [] "" suites := by
  rw [buildJUnitReport] at h
  cases hm : mapExcept (fun g => buildTestsuite g threshold) (groupBy issues) with
  | error e => rw [hm] at h; cases h
  | ok suites => rw [hm] at h; cases h; exact ⟨suites, rfl, rfl⟩

lemma buildJUnitReport_error {issues : List Issue} {threshold : String} {e : String}
    (h : buildJUnitReport issues threshold = .error e) :
    mapExcept (fun g => buildTestsuite g threshold) (groupBy issues) = .error e := by
  rw [buildJUnitReport] at h
  cases hm : mapExcept (fun g => buildTestsuite g threshold) (groupBy issues) with
  | error e' => rw [hm] at h; cases h; rfl
  | ok suites => rw [hm] at h; cases h

lemma issue_mem_groupBy {issues : List Issue} {i : Issue} (hi : i ∈ issues) :
    ∃ g ∈ groupBy issues, i ∈ g := by
  rw [groupBy_eq]
  refine ⟨issues.filter (fun j => j.name == i.name),
    List.mem_map.mpr ⟨i.name, (firstSeenKeys_mem issues i.name).mpr ⟨i, hi, rfl⟩, rfl⟩, ?_⟩
  exact List.mem_filter.mpr ⟨hi, by simp⟩

lemma caseXml_pred (i : Issue) (t : String) :
    ((caseXml i t).tag == "testcase" && hasFailureChild (caseXml i t)) =
      jsGE (Severity i.severity) (Severity t) := by
  by_cases h : jsGE (Severity i.severity) (Severity t) = true
  · simp [caseXml, hasFailureChild, Xml.tag, Xml.childNodes, failureXml, h]
  · simp [caseXml, hasFailureChild, Xml.tag, Xml.childNodes, h]

lemma caseXml_name (i : Issue) (t : String) :
    (attrVal (caseXml i t) "name").getD "" = "Issue-" ++ toString i.serialNumber := by
  have h1 : (("name" : String) == "name") = true := by decide
  simp [attrVal, caseXml, Xml.attrs, List.find?, h1]

lemma mem_failing_junit {issues : List Issue} {t : String} {a : String} :
    a ∈ failingTestcases (junitXml issues t) ↔
      ∃ g ∈ groupBy issues, ∃ i ∈ g,
        jsGE (Severity i.severity) (Severity t) = true ∧
        a = "Issue-" ++ toString i.serialNumber := by
  constructor
  · intro ha
    rw [failingTestcases, junitXml] at ha
    simp only [Xml.childNodes, List.mem_flatMap] at ha
    obtain ⟨suite, hsuite, ha⟩ := ha
    obtain ⟨g, hg, rfl⟩ := List.mem_map.mp hsuite
    obtain ⟨c, hc, rfl⟩ := List.mem_map.mp ha
    obtain ⟨hcmem, hp⟩ := List.mem_filter.mp hc
    rw [suiteXml] at hcmem
    simp only [Xml.childNodes] at hcmem
    obtain ⟨i, hi, rfl⟩ := List.mem_map.mp hcmem
    rw [caseXml_pred] at hp
    exact ⟨g, hg, i, hi, hp, (caseXml_name i t).symm⟩
  · rintro ⟨g, hg, i, hi, hge, rfl⟩
    rw [failingTestcases, junitXml]
    simp only [Xml.childNodes, List.mem_flatMap]
    refine ⟨suiteXml g t, List.mem_map.mpr ⟨g, hg, rfl⟩, ?_⟩
    refine List.mem_map.mpr ⟨caseXml i t, List.mem_filter.mpr ⟨?_, ?_⟩, caseXml_name i t⟩
    · rw [suiteXml]
      simp only [Xml.childNodes]
      exact List.mem_map.mpr ⟨i, hi, rfl⟩
    · rw [caseXml_pred]
      exact hge

/-! ## Claims -/

/-- C2: the concrete scenario — one issue named "SQL Injection" with
severity "High", confidence "Certain", serial number 7 and type
"Injection", converted at threshold "Medium", yields exactly one
testsuite (name "SQL Injection", tests "1", package "Injection")
containing exactly one testcase (name "Issue-7", classname
"SQL Injection", status "High/Certain") with a nested failure element
whose message is "SQL Injection". -/
theorem C2_concrete_scenario :
    buildJUnitReport [sqlIssue] "Medium" =
      .ok (.elem "testsuites" [] ""
        [.elem "testsuite"
          [("name", "SQL Injection"), ("tests", "1"), ("package", "Injection")] ""
          [.elem "testcase"
            [("name", "Issue-7"), ("classname", "SQL Injection"),
             ("status", "High/Certain")] ""
            [.elem "failure" [("message", "SQL Injection")]
              (failureDescription sqlIssue) []]]]) := rfl

/-- C5: for valid severity and threshold names the comparison is decided
by the ordinal ranks (rank of candidate ≥ rank of threshold), it is
reflexive, "Medium" meets threshold "Low", and it is not the lexical
string order (severity "High" meets threshold "Information" although
"High" precedes "Information" lexically). -/
theorem C5_ordinal_comparison :
    (∀ (i : Issue) (t : String) (rs rt : Nat),
        Severity i.severity = .num rs → Severity t = .num rt →
        isAboveThreshold i t = .ok (decide (rs ≥ rt))) ∧
    (∀ (i : Issue) (rs : Nat), Severity i.severity = .num rs →
        isAboveThreshold i i.severity = .ok true) ∧
    (∀ i : Issue, i.severity = "Medium" → isAboveThreshold i "Low" = .ok true) ∧
    (isAboveThreshold sqlIssue "Information" = .ok true ∧
      "High".data < "Information".data) := by
  refine ⟨?_, ?_, ?_, rfl, by decide⟩
  · intro i t rs rt hs ht
    rw [isAboveThreshold, ht, hs]
    simp [jsGE]
  · intro i rs hs
    rw [isAboveThreshold, hs]
    simp [jsGE]
  · intro i hs
    rw [isAboveThreshold, hs]
    rfl

/-- C5 (witness): the comparison evaluated at severity "High" against
threshold "Low", and at "High" against itself. -/
theorem C5_ordinal_comparison_witness :
    isAboveThreshold sqlIssue "Low" = .ok (decide (3 ≥ 1)) ∧
    isAboveThreshold sqlIssue sqlIssue.severity = .ok true ∧
    isAboveThreshold { sqlIssue with severity := "Medium" } "Low" = .ok true :=
  ⟨C5_ordinal_comparison.1 sqlIssue "Low" 3 1 rfl rfl,
   C5_ordinal_comparison.2.1 sqlIssue 3 rfl,
   C5_ordinal_comparison.2.2.1 { sqlIssue with severity := "Medium" } rfl⟩

/-- C7: an empty issue list converts successfully under any valid
threshold, producing the `testsuites` root with no children. -/
theorem C7_empty_input (threshold : String)
    (_h : ∃ r, Severity threshold = .num r) :
    buildJUnitReport [] threshold = .ok (.elem "testsuites" [] "" []) := rfl

/-- C7 (witness): the empty conversion at threshold "High". -/
theorem C7_empty_input_witness :
    buildJUnitReport [] "High" = .ok (.elem "testsuites" [] "" []) :=
  C7_empty_input "High" ⟨3, rfl⟩

/-- C8: the conversion is a deterministic pure function of the issue
list and the threshold — two invocations on the same input produce the
same outcome, hence byte-identical serialized output on success and the
identical error otherwise. -/
theorem C8_deterministic (issues : List Issue) (threshold : String) :
    convert issues threshold = convert issues threshold ∧
    buildJUnitReport issues threshold = buildJUnitReport issues threshold :=
  ⟨rfl, rfl⟩

/-- C3 (counterexample): an issue named "ZZZ" with serial number 42 and
unknown severity "Bogus" fails the conversion, but the error message
names only the severity value — neither the issue's name nor its serial
number occurs in it; and an unrecognized severity does not even always
fail: the severity "toString", inherited from `Object.prototype`,
passes the guard and the conversion silently succeeds with no failure
child. -/
theorem C3_error_does_not_identify_issue :
    (buildJUnitReport [bogusIssue] "Low" =
      .error "Issue has unknown severity Bogus" ∧
    ¬ ("ZZZ".data <:+: "Issue has unknown severity Bogus".data) ∧
    ¬ ("42".data <:+: "Issue has unknown severity Bogus".data)) ∧
    buildJUnitReport [{ bogusIssue with severity := "toString" }] "Low" =
      .ok (.elem "testsuites" [] ""
        [.elem "testsuite"
          [("name", "ZZZ"), ("tests", "1"), ("package", "T")] ""
          [.elem "testcase"
            [("name", "Issue-42"), ("classname", "ZZZ"),
             ("status", "toString/Firm")] "" []]]) :=
  ⟨⟨rfl, by decide, by decide⟩, rfl⟩

/-- C3 (amended): with a valid threshold, an issue whose severity
lookup is `undefined` — a name that is neither one of the four severity
names nor an `Object.prototype` property — fails the whole conversion
with the data error naming the offending severity value; the message
does not name the issue's serial number or name, and a severity that
names a prototype property does not fail the conversion at all. -/
theorem C3_unknown_severity_fails (issues : List Issue) (threshold : String)
    (rt : Nat) (ht : Severity threshold = .num rt)
    (hbad : ∃ i ∈ issues, Severity i.severity = .undefined) :
    ∃ i ∈ issues, Severity i.severity = .undefined ∧
      buildJUnitReport issues threshold =
        .error ("Issue has unknown severity " ++ i.severity) := by
  have htne : Severity threshold ≠ .undefined := by rw [ht]; simp
  cases hb : buildJUnitReport issues threshold with
  | ok tree =>
    exfalso
    obtain ⟨i, hi, hnone⟩ := hbad
    obtain ⟨suites, hm, _⟩ := buildJUnitReport_ok_shape hb
    obtain ⟨g, hg, hgi⟩ := issue_mem_groupBy hi
    obtain ⟨s, hs⟩ := mapExcept_ok_forall hm g hg
    obtain ⟨cases0, hmc, _⟩ := buildTestsuite_ok_shape hs
    obtain ⟨c, hc⟩ := mapExcept_ok_forall hmc i hgi
    rw [buildTestcase, isAboveThreshold, if_neg htne, if_pos hnone] at hc
    cases hc
  | error e =>
    obtain ⟨g, hg, hge⟩ := mapExcept_error_mem (buildJUnitReport_error hb)
    obtain ⟨i, hi, hie⟩ := mapExcept_error_mem (buildTestsuite_error hge)
    have hia := buildTestcase_error hie
    rw [isAboveThreshold, if_neg htne] at hia
    by_cases hsev : Severity i.severity = .undefined
    · rw [if_pos hsev] at hia
      refine ⟨i, mem_of_mem_groupBy hg hi, hsev, ?_⟩
      cases hia
      rfl
    · rw [if_neg hsev] at hia
      cases hia

/-- C3 (witness for the amended claim): the bogus-severity issue next to
a valid one fails the whole conversion with the severity-only message. -/
theorem C3_unknown_severity_fails_witness :
    ∃ i ∈ [sqlIssue, bogusIssue], Severity i.severity = .undefined ∧
      buildJUnitReport [sqlIssue, bogusIssue] "Low" =
        .error ("Issue has unknown severity " ++ i.severity) :=
  C3_unknown_severity_fails [sqlIssue, bogusIssue] "Low" 1 rfl
    ⟨bogusIssue, by simp, rfl⟩

/-- C4: `groupBy` partitions the issue list exactly — the groups are,
in first-seen order of the distinct names, the input-ordered sublists
of issues bearing each name, and their concatenation is a permutation
of the input list (no duplicates, no omissions). -/
theorem C4_grouping_partitions (issues : List Issue) :
    groupBy issues =
      (firstSeenKeys issues).map (fun k => issues.filter (fun i => i.name == k)) ∧
    ((groupBy issues).flatten).Perm issues := by
  refine ⟨groupBy_eq issues, ?_⟩
  rw [groupBy_eq]
  exact perm_join_filter _ _ (firstSeenKeys_nodup issues)
    (fun i hi => (firstSeenKeys_mem issues i.name).mpr ⟨i, hi, rfl⟩)

/-- C9: in every successfully produced document, each testsuite's
`tests` attribute equals the number of its `testcase` children. -/
theorem C9_tests_attribute_matches (issues : List Issue) (threshold : String)
    (tree : Xml) (h : buildJUnitReport issues threshold = .ok tree) :
    ∀ s ∈ tree.childNodes,
      attrVal s "tests" =
        some (toString ((s.childNodes.filter (fun c => c.tag == "testcase")).length)) := by
  obtain ⟨suites, hm, rfl⟩ := buildJUnitReport_ok_shape h
  intro s hs
  simp only [Xml.childNodes] at hs
  obtain ⟨g, hg, hgs⟩ := mapExcept_ok_mem hm s hs
  obtain ⟨cases0, hmc, rfl⟩ := buildTestsuite_ok_shape hgs
  have hlen : cases0.length = g.length := mapExcept_ok_length hmc
  have htags : ∀ c ∈ cases0, (c.tag == "testcase") = true := by
    intro c hc
    obtain ⟨i, _, hic⟩ := mapExcept_ok_mem hmc c hc
    simp [buildTestcase_ok_tag hic]
  simp only [Xml.childNodes]
  rw [List.filter_eq_self.mpr htags, hlen]
  have h1 : (("name" : String) == "tests") = false := by decide
  have h2 : (("tests" : String) == "tests") = true := by decide
  simp [attrVal, Xml.attrs, List.find?, h1, h2]

/-- C9 (witness): the concrete single-issue document carries
tests="1" on its only testsuite, matching its one testcase child. -/
theorem C9_tests_attribute_matches_witness :
    attrVal (suiteXml [sqlIssue] "Medium") "tests" =
      some (toString (((suiteXml [sqlIssue] "Medium").childNodes.filter
        (fun c => c.tag == "testcase")).length)) :=
  C9_tests_attribute_matches [sqlIssue] "Medium" (junitXml [sqlIssue] "Medium") rfl
    (suiteXml [sqlIssue] "Medium") (List.mem_singleton.mpr rfl)

/-- C6: for a fixed issue list with valid severities and valid
thresholds t1 ≤ t2 (by rank), every testcase failing under the higher
threshold t2 also fails under t1 — raising the threshold never adds a
failure annotation. -/
theorem C6_threshold_monotonicity (issues : List Issue) (t1 t2 : String)
    (r1 r2 : Nat) (tree1 tree2 : Xml)
    (h1 : Severity t1 = .num r1) (h2 : Severity t2 = .num r2) (hle : r1 ≤ r2)
    (hv : ∀ i ∈ issues, ∃ r, Severity i.severity = .num r)
    (hb1 : buildJUnitReport issues t1 = .ok tree1)
    (hb2 : buildJUnitReport issues t2 = .ok tree2) :
    failingTestcases tree2 ⊆ failingTestcases tree1 := by
  have hv' : ∀ i ∈ issues, Severity i.severity ≠ .undefined := by
    intro i hi
    obtain ⟨r, hr⟩ := hv i hi
    rw [hr]
    simp
  have ht1 : Severity t1 ≠ .undefined := by rw [h1]; simp
  have ht2 : Severity t2 ≠ .undefined := by rw [h2]; simp
  rw [build_ok_of_valid ht1 hv'] at hb1
  rw [build_ok_of_valid ht2 hv'] at hb2
  cases hb1
  cases hb2
  intro a ha
  obtain ⟨g, hg, i, hi, hge, rfl⟩ := mem_failing_junit.mp ha
  refine mem_failing_junit.mpr ⟨g, hg, i, hi, ?_, rfl⟩
  obtain ⟨r, hr⟩ := hv i (mem_of_mem_groupBy hg hi)
  rw [hr, h2] at hge
  simp only [jsGE, decide_eq_true_eq] at hge
  rw [hr, h1]
  simp only [jsGE, decide_eq_true_eq]
  exact le_trans hle hge

/-- C6 (witness): two issues (severities "High" and "Information"), the
failing testcases at threshold "High" are among those at "Low". -/
theorem C6_threshold_monotonicity_witness :
    failingTestcases (junitXml [sqlIssue, infoIssue] "High") ⊆
      failingTestcases (junitXml [sqlIssue, infoIssue] "Low") :=
  C6_threshold_monotonicity [sqlIssue, infoIssue] "Low" "High" 1 3
    (junitXml [sqlIssue, infoIssue] "Low") (junitXml [sqlIssue, infoIssue] "High")
    rfl rfl (by decide)
    (by
      intro i hi
      rcases List.mem_cons.mp hi with rfl | hi
      · exact ⟨3, rfl⟩
      · rcases List.mem_cons.mp hi with rfl | hi
        · exact ⟨0, rfl⟩
        · cases hi)
    rfl rfl
